import Mathlib

/-!
Verification of the Kong Gateway SDET assignment test suite
(`andsoliman/kong-gateway-sdet-assignment`), a Playwright end-to-end UI
test repository.

The development shallowly embeds the browser-automation logic of the
repository as pure Lean functions over explicit page/element states:

* `tests/service-creation.spec.ts` (primary variant): the form-fill
  utility `fillFormField`, the service-creation helper `createService`,
  the `beforeEach` lifecycle hook, the heuristic input scan and fallback
  selectors of the route-creation scenario, and the protocol-selector
  probing loop.
* the backup route-creation helper `createRoute` (test-id addressed
  variant) found in an unnamed duplicate source file;
* the two Playwright configuration variants (`playwright.config.ts` and
  the unnamed backup configuration);
* the scheduling semantics of `test.describe.serial` for the two
  scenarios of the suite.

JavaScript-specific behaviours are modelled faithfully: `getAttribute`
returns `null` for an absent attribute (here `Option String`), JS string
truthiness (`!s` is true for `null` and `""`), `String.includes` after
`toLowerCase`, and `locator(...).first()` resolution order.
-/

/-! ### String helpers (JS `includes` / `toLowerCase` semantics) -/

/-- `leadMatch n h` is true when the character list `n` is an initial
segment of `h`. -/
def leadMatch : List Char → List Char → Bool
  | [], _ => true
  | _ :: _, [] => false
  | a :: as, b :: bs => a == b && leadMatch as bs

/-- `hasSub n h` is true when `n` occurs as a contiguous segment of `h`:
the model of JavaScript `String.includes`. -/
def hasSub (n : List Char) : List Char → Bool
  | [] => leadMatch n []
  | b :: bs => leadMatch n (b :: bs) || hasSub n bs

/-- Case-insensitive containment: `s.toLowerCase().includes(needle)` for a
lowercase `needle`. -/
def containsCI (needle s : String) : Bool :=
  hasSub needle.toList (s.toList.map Char.toLower)

/-- JavaScript truthiness of a nullable string: `null` and `""` are falsy. -/
def truthy : Option String → Bool
  | none => false
  | some s => !(s == "")

/-- `attr?.toLowerCase().includes(needle)` on a nullable attribute:
`null` short-circuits to false via optional chaining. -/
def attrHas (needle : String) : Option String → Bool
  | none => false
  | some s => containsCI needle s

/-! ### Page elements -/

/-- A single-line text input of the rendered page, in document order,
with the attributes the suite inspects.  `labelNameAdj` records whether
the element is matched by the `label:has-text("Name") ~ input` branch of
the fallback selector. -/
structure InputElem where
  visible : Bool
  nameAttr : Option String
  placeholderAttr : Option String
  testId : Option String := none
  labelNameAdj : Bool := false
  value : String := ""
deriving Repr, DecidableEq

/-- A fill action recorded against the input at document-order index
`idx`. -/
structure FillAct where
  idx : Nat
  value : String
deriving Repr, DecidableEq

/-! ### The heuristic route-form scan
(`service-creation.spec.ts`, route scenario, loop over `input[type="text"]`) -/

/-- Condition of the name branch of the scan:
`isVisible && !namedFilled && (!placeholder && !name)` (flag handled by
the caller). -/
def nameCondE (e : InputElem) : Bool :=
  e.visible && !truthy e.placeholderAttr && !truthy e.nameAttr

/-- Condition of the path branch of the scan: `isVisible && !pathFilled &&
(placeholder?.toLowerCase().includes("path") ||
name?.toLowerCase().includes("path"))` (flag handled by the caller). -/
def pathCondE (e : InputElem) : Bool :=
  e.visible && (attrHas "path" e.placeholderAttr || attrHas "path" e.nameAttr)

/-- The `for (let i = 0; i < count; i++)` scan over all
`input[type="text"]` elements: thread the `namedFilled`/`pathFilled`
flags, fill `test-route` into the first visible input with neither a
`name` nor a `placeholder` attribute and `/test-path` into the first
visible input whose `name`/`placeholder` contains `"path"`.  Returns the
fill actions together with the final two flags. -/
def scanOut : Nat → List InputElem → Bool → Bool → List FillAct × Bool × Bool
  | _, [], nf, pf => ([], nf, pf)
  | k, e :: rest, nf, pf =>
    if !nf && nameCondE e then
      let r := scanOut (k + 1) rest true pf
      (⟨k, "test-route"⟩ :: r.1, r.2)
    else if !pf && pathCondE e then
      let r := scanOut (k + 1) rest nf true
      (⟨k, "/test-path"⟩ :: r.1, r.2)
    else
      scanOut (k + 1) rest nf pf

/-- Fill actions of the scan started on a fresh form. -/
def scanActs (form : List InputElem) : List FillAct :=
  (scanOut 0 form false false).1

/-- `namedFilled` after the scan. -/
def scanNF (form : List InputElem) : Bool :=
  (scanOut 0 form false false).2.1

/-- `pathFilled` after the scan. -/
def scanPF (form : List InputElem) : Bool :=
  (scanOut 0 form false false).2.2

/-! ### The attribute-substring fallback selectors -/

/-- Matcher of
`input[placeholder*="name" i], input[name*="name" i], label:has-text("Name") ~ input`. -/
def nameFbMatch (e : InputElem) : Bool :=
  attrHas "name" e.placeholderAttr || attrHas "name" e.nameAttr || e.labelNameAdj

/-- Matcher of `input[placeholder*="path" i], input[name*="path" i]`. -/
def pathFbMatch (e : InputElem) : Bool :=
  attrHas "path" e.placeholderAttr || attrHas "path" e.nameAttr

/-- `locator(sel).first()` followed by `isVisible` and `fill`: the action
list of a fallback fill (empty when no match, or when the first match is
not visible). -/
def fbAct (p : InputElem → Bool) (v : String) : Nat → List InputElem → List FillAct
  | _, [] => []
  | k, e :: rest =>
    if p e then (if e.visible then [⟨k, v⟩] else []) else fbAct p v (k + 1) rest

/-- The complete name/path population of the route form in the primary
variant: the heuristic scan, then—only for a field the scan did not
fill—the attribute-substring fallback locator for that field. -/
def routeFillActs (form : List InputElem) : List FillAct :=
  let s := scanOut 0 form false false
  s.1
    ++ (if s.2.1 then [] else fbAct nameFbMatch "test-route" 0 form)
    ++ (if s.2.2 then [] else fbAct pathFbMatch "/test-path" 0 form)

/-- The document-order index that receives the route-name value, if any. -/
def nameTargetOf (acts : List FillAct) : Option Nat :=
  (acts.find? (fun a => a.value == "test-route")).map (·.idx)

/-- The document-order index that receives the path value, if any. -/
def pathTargetOf (acts : List FillAct) : Option Nat :=
  (acts.find? (fun a => a.value == "/test-path")).map (·.idx)

/-- Index of the first input carrying the given `data-testid`, the model
of `getByTestId` availability on the route form. -/
def testIdIdx (tid : String) : Nat → List InputElem → Option Nat
  | _, [] => none
  | k, e :: rest =>
    if e.testId == some tid then some k else testIdIdx tid (k + 1) rest

/-! ### UI actions and errors -/

/-- Visible UI-driving actions the suite performs. -/
inductive Act where
  | goto (url : String)
  | click (target : String)
  | fillTid (tid : String) (v : String)
  | fillSel (sel : String) (v : String)
  | waitIdle
  | waitMs (n : Nat)
deriving Repr, DecidableEq

/-- Error of an awaited locator action whose element never becomes
actionable (Playwright timeout). -/
inductive UIError where
  | timedOut (locator : String)
deriving Repr, DecidableEq

/-! ### The backup route-creation helper `createRoute`
(unnamed duplicate source file: test-id addressed variant) -/

/-- Presence of the controls the backup `createRoute` addresses, each by
an exact locator. -/
structure RouteView where
  nameField : Bool
  servicePicker : Bool
  serviceOption : Bool
  pathsField : Bool
  saveButton : Bool
deriving Repr, DecidableEq

/-- The backup `createRoute(page, name, path)` helper: navigate to the
route-creation URL, then unconditionally `getByTestId('route-form-name').fill`,
`getByTestId('route-form-service-id').click`, `getByText('test-service').click`,
`getByTestId('route-form-paths-input-1').fill`, and click save.  Each
awaited action on an absent control times out and the error propagates. -/
def createRoute (v : RouteView) (rname rpath : String) : Except UIError (List Act) :=
  if !v.nameField then .error (.timedOut "route-form-name")
  else if !v.servicePicker then .error (.timedOut "route-form-service-id")
  else if !v.serviceOption then .error (.timedOut "text=test-service")
  else if !v.pathsField then .error (.timedOut "route-form-paths-input-1")
  else if !v.saveButton then .error (.timedOut "button:save")
  else .ok [Act.goto "/default/routes/create", Act.waitIdle, Act.waitMs 2000,
            Act.fillTid "route-form-name" rname,
            Act.click "route-form-service-id", Act.click "text=test-service",
            Act.fillTid "route-form-paths-input-1" rpath,
            Act.click "button:save"]

/-! ### The two Playwright configuration variants -/

/-- The fields of `defineConfig` that the suite sets. -/
structure PWConfig where
  testDir : String
  fullyParallel : Bool
  forbidOnly : Bool
  retries : Nat
  workers : Option Nat
  expectTimeout : Option Nat
  reporter : String
  traceMode : String
  baseURL : String
deriving Repr, DecidableEq

/-- `playwright.config.ts` (the configuration the runner loads by name),
as a function of `!!process.env.CI`.  It sets no `expect.timeout`. -/
def playwrightConfig (ci : Bool) : PWConfig :=
  { testDir := "./tests"
    fullyParallel := true
    forbidOnly := ci
    retries := if ci then 2 else 0
    workers := if ci then some 1 else none
    expectTimeout := none
    reporter := "html"
    traceMode := "on-first-retry"
    baseURL := "http://localhost:8002/" }

/-- The unnamed backup configuration variant: serial execution and an
explicit 20000 ms expectation timeout. -/
def backupConfig (ci : Bool) : PWConfig :=
  { testDir := "./tests"
    fullyParallel := false
    forbidOnly := ci
    retries := if ci then 2 else 0
    workers := if ci then some 1 else none
    expectTimeout := some 20000
    reporter := "html"
    traceMode := "on-first-retry"
    baseURL := "http://localhost:8002/" }

/-! ### Scheduling semantics of `test.describe.serial` -/

/-- Scheduler events: a test (by declaration index) starts or completes. -/
inductive Ev where
  | start (i : Nat)
  | finish (i : Nat)
deriving Repr, DecidableEq

/-- Admissible event traces of a `describe.serial` group: the declared
tests run one after another in declaration order in a single worker;
after a failing test the remaining tests are skipped and produce no
events (`halt`). -/
inductive SerTrace : List Nat → List Ev → Prop where
  | nil : SerTrace [] []
  | step : ∀ {i : Nat} {is : List Nat} {tr : List Ev},
      SerTrace is tr → SerTrace (i :: is) (Ev.start i :: Ev.finish i :: tr)
  | halt : ∀ {i : Nat} {is : List Nat}, SerTrace (i :: is) [Ev.start i, Ev.finish i]

/-- Admissible event traces of a non-serial group: any interleaving in
which each pending test may start and each running test may complete. -/
inductive ParTrace : List Nat → List Nat → List Ev → Prop where
  | nil : ∀ {p : List Nat}, ParTrace p [] []
  | launch : ∀ {p r : List Nat} {tr : List Ev} {i : Nat},
      i ∈ p → ParTrace (p.erase i) (i :: r) tr → ParTrace p r (Ev.start i :: tr)
  | settle : ∀ {p r : List Nat} {tr : List Ev} {i : Nat},
      i ∈ r → ParTrace p (r.erase i) tr → ParTrace p r (Ev.finish i :: tr)

/-- Traces a group may produce, depending on its declared mode. -/
def groupTraces (serialMode : Bool) (tests : List Nat) (tr : List Ev) : Prop :=
  if serialMode then SerTrace tests tr else ParTrace tests [] tr

/-- A declared test group. -/
structure SuiteDecl where
  serialMode : Bool
  tests : List Nat
deriving Repr, DecidableEq

/-- The suite as declared in `service-creation.spec.ts`:
`test.describe.serial('Kong Gateway UI Tests', ...)` containing scenario
0 (`Create a new Service from scratch`) followed by scenario 1
(`Create a Route associated with the Service`). -/
def kongSuite : SuiteDecl := { serialMode := true, tests := [0, 1] }

/-! ### The form-fill utility `fillFormField` -/

/-- Lower-level automation-driver failures. -/
inductive DriverErr where
  | sessionClosed
deriving Repr, DecidableEq

/-- A browser session: the driver may have terminated, and the page is
the list of inputs in document order. -/
structure Session where
  closed : Bool
  page : List InputElem
deriving Repr, DecidableEq

/-- `locator(sel).first()` then `fill` guarded by `isVisible`: update the
first element matching `p` when it is visible, otherwise change
nothing. -/
def fillFirst (p : InputElem → Bool) (v : String) : List InputElem → List InputElem
  | [] => []
  | e :: rest =>
    if p e then (if e.visible then { e with value := v } :: rest else e :: rest)
    else e :: fillFirst p v rest

/-- The `fillFormField` helper: on a live session, resolve the first
element matching the locator and fill it only if visible; a terminated
driver session is the only failure it propagates. -/
def fillFormField (s : Session) (p : InputElem → Bool) (v : String) :
    Except DriverErr (List InputElem) :=
  if s.closed then .error .sessionClosed
  else .ok (fillFirst p v s.page)

/-! ### The service-creation helper `createService` (primary variant) -/

/-- Matcher of `input[name*="name" i]`. -/
def svcNameSel (e : InputElem) : Bool := attrHas "name" e.nameAttr

/-- Matcher of `input[name*="url" i]`. -/
def svcUrlSel (e : InputElem) : Bool := attrHas "url" e.nameAttr

/-- Environment of one `createService` call: whether direct navigation to
`/default/services/create` raises, and which controls the current view
offers. -/
structure SvcEnv where
  directNavFails : Bool
  newServiceBtn : Bool
  saveBtn : Bool
  page : List InputElem
deriving Repr, DecidableEq

/-- The `createService(page, name, url)` helper: `try { goto } catch {
click new-gateway-service }`, wait for network idle, fill the name and
URL fields through the form-fill utility, click save, settle. -/
def createService (env : SvcEnv) (sname surl : String) :
    Except UIError (List Act × List InputElem) :=
  let nav : Except UIError (List Act) :=
    if env.directNavFails then
      if env.newServiceBtn then .ok [Act.click "new-gateway-service"]
      else .error (.timedOut "new-gateway-service")
    else .ok [Act.goto "/default/services/create"]
  match nav with
  | .error err => .error err
  | .ok navActs =>
    let p1 := fillFirst svcNameSel sname env.page
    let p2 := fillFirst svcUrlSel surl p1
    if env.saveBtn then
      .ok (navActs ++ [Act.waitIdle,
                       Act.fillSel "input[name*=name i]" sname,
                       Act.fillSel "input[name*=url i]" surl,
                       Act.click "button:save", Act.waitIdle, Act.waitMs 5000], p2)
    else .error (.timedOut "button:save")

/-! ### The `beforeEach` lifecycle hook and the scenario runner -/

/-- External conditions one hook run faces: whether root navigation
succeeds, whether the main container appears, and whether the license
modal (a button labelled "OK") is visible. -/
structure Env where
  reachable : Bool
  containerAppears : Bool
  modalVisible : Bool
deriving Repr, DecidableEq

/-- Outcome of the hook: either the scenario is marked skipped with a
reason, or the hook completes and the scenario body may run. -/
inductive HookOut where
  | skip (reason : String)
  | proceed (acts : List Act)
deriving Repr, DecidableEq

/-- The `test.beforeEach` hook of the suite: `try { goto('/'); wait for
the main container } catch { test.skip }`; then wait, and click the "OK"
button only if it is visible (`isVisible` does not throw on absence). -/
def beforeEachHook (env : Env) : HookOut :=
  if env.reachable && env.containerAppears then
    HookOut.proceed
      ([Act.goto "/", Act.waitMs 2000]
        ++ (if env.modalVisible then [Act.click "OK", Act.waitMs 1000] else []))
  else HookOut.skip "Kong Manager not reachable at baseURL; skipping UI tests"

/-- Report status of one scenario. -/
inductive Status where
  | passed
  | failed
  | skipped
deriving Repr, DecidableEq

/-- Result of one scenario: its report status, and whether its body was
executed at all. -/
structure ScenRes where
  status : Status
  bodyRan : Bool
deriving Repr, DecidableEq

/-- Run one scenario: the hook first; a skipping hook reports the
scenario skipped without executing the body; otherwise the body runs and
its success (`body`) decides the status. -/
def runScenario (env : Env) (body : Bool) : ScenRes :=
  match beforeEachHook env with
  | .skip _ => ⟨Status.skipped, false⟩
  | .proceed _ => ⟨if body then Status.passed else Status.failed, true⟩

/-- Run the serial suite: scenario 0, then scenario 1; in a serial group
a failure of an earlier test skips the later one. -/
def runKongSuite (env : Env) (bodyA bodyB : Bool) : List ScenRes :=
  let ra := runScenario env bodyA
  let rb := if ra.status == Status.failed then ⟨Status.skipped, false⟩
            else runScenario env bodyB
  [ra, rb]

/-- The run exits cleanly exactly when no scenario failed. -/
def exitOk (rs : List ScenRes) : Bool :=
  rs.all (fun r => !(r.status == Status.failed))

/-- Full action trace of one scenario: the hook actions, then the body
actions; nothing runs when the hook skips. -/
def scenarioTrace (env : Env) (bodyActs : List Act) : List Act :=
  match beforeEachHook env with
  | .skip _ => []
  | .proceed hs => hs ++ bodyActs

/-! ### Protocol-selector probing (route scenario, primary variant) -/

/-- A candidate protocol control: its visibility, whether its tag is
`SELECT`, and whether the selection action on it fails. -/
structure ProtoElem where
  visible : Bool
  isSelect : Bool
  actFails : Bool
deriving Repr, DecidableEq

/-- The fixed ordered candidate list `protocolSelectors` of the source. -/
def protocolSelectors : List String :=
  ["select[name*=\"protocol\" i]",
   "[role=\"combobox\"][aria-label*=\"protocol\" i]",
   "input[name*=\"protocol\" i]",
   "div[class*=\"protocol\"] select",
   "div[class*=\"protocol\"] input"]

/-- Events of the probing loop: a candidate selector is probed for
visibility, or the selection action is applied to it (`select` records
whether the `SELECT` branch was taken). -/
inductive PEvent where
  | probe (sel : String)
  | actOn (sel : String) (select : Bool)
deriving Repr, DecidableEq

/-- The raw selection action on a resolved candidate: `selectOption` or
`click`-then-option-click; it may fail. -/
def tryAct (e : ProtoElem) : Except UIError Unit :=
  if e.actFails then .error (.timedOut "protocol-selection") else .ok ()

/-- The `.catch(() => {})` applied to every selection action in the
source: any failure is swallowed. -/
def catchUnit (x : Except UIError Unit) : Except UIError Unit :=
  match x with
  | .ok _ => .ok ()
  | .error _ => .ok ()

/-- The probing loop over the candidate selectors: resolve each selector
in order; on the first candidate that resolves to a visible element,
apply the (failure-swallowed) selection action and `break`; otherwise
continue. -/
def protoRun (resolve : String → Option ProtoElem) : List String → Except UIError (List PEvent)
  | [] => .ok []
  | s :: rest =>
    match resolve s with
    | some e =>
      if e.visible then
        match catchUnit (tryAct e) with
        | .error err => .error err
        | .ok _ => .ok [PEvent.probe s, PEvent.actOn s e.isSelect]
      else (protoRun resolve rest).map (PEvent.probe s :: ·)
    | none => (protoRun resolve rest).map (PEvent.probe s :: ·)

/-- Whether a probe event is a selection action. -/
def isActEvent : PEvent → Bool
  | .actOn _ _ => true
  | .probe _ => false

/-- The candidate a probing-loop trace acted upon, if any. -/
def actedSel (evs : List PEvent) : Option String :=
  (evs.find? isActEvent).map (fun ev => match ev with | .actOn s _ => s | .probe s => s)

/-- Visibility of a candidate selector under a resolution of the page. -/
def selVisible (resolve : String → Option ProtoElem) (s : String) : Bool :=
  match resolve s with
  | some e => e.visible
  | none => false

/-- Declarative characterization used to state first-match properties:
the index (counting from `k`) of the first element satisfying `p`. -/
def firstIdxFrom (p : InputElem → Bool) : Nat → List InputElem → Option Nat
  | _, [] => none
  | k, e :: rest => if p e then some k else firstIdxFrom p (k + 1) rest

/-! ### Concrete example inputs used in closed statements -/

/-- A route form carrying an exact-test-id name field at index 0 (which
also has a `name` attribute) and an attribute-less input at index 1. -/
def exForm : List InputElem :=
  [{ visible := true, nameAttr := some "svc", placeholderAttr := none,
     testId := some "route-form-name" },
   { visible := true, nameAttr := none, placeholderAttr := none }]

/-- A route form whose first input is unlabeled (no attributes) and whose
second input carries a path placeholder. -/
def exScanForm : List InputElem :=
  [{ visible := true, nameAttr := none, placeholderAttr := none },
   { visible := true, nameAttr := none, placeholderAttr := some "Enter a Path" }]

/-- A route form whose single input carries a `name` attribute containing
`"name"`, so the heuristic scan fills nothing and only the name fallback
locator applies. -/
def exFbForm : List InputElem :=
  [{ visible := true, nameAttr := some "the_name", placeholderAttr := some "x" }]

/-- A route-creation view offering every control except the service
picker. -/
def exViewNoPicker : RouteView :=
  { nameField := true, servicePicker := false, serviceOption := true,
    pathsField := true, saveButton := true }

/-- A route-creation view offering every control except the
test-id-addressed name field. -/
def exViewNoName : RouteView :=
  { nameField := false, servicePicker := true, serviceOption := true,
    pathsField := true, saveButton := true }

/-! ## Claim theorems -/

/-- **C3** (corrected, counterexample): the claim says the run
configuration sets the per-expectation timeout to 20000 ms, but the
configuration the runner loads by name (`playwright.config.ts`) sets no
`expect.timeout` at all, under either value of the CI flag. -/
theorem C3_counterexample :
    (playwrightConfig false).expectTimeout ≠ some 20000 ∧
    (playwrightConfig true).expectTimeout ≠ some 20000 := by
  constructor <;> simp [playwrightConfig]

/-- **C3** (amended): both configuration variants set the whole-scenario
retry count to 0 locally and 2 under CI and the worker count to 1 under
CI (runner default otherwise); the 20000 ms per-expectation timeout is
set only in the backup configuration variant, while the active
`playwright.config.ts` leaves the expectation timeout at the runner
default. -/
theorem C3_run_configuration (ci : Bool) :
    (playwrightConfig ci).retries = (if ci then 2 else 0) ∧
    (playwrightConfig ci).workers = (if ci then some 1 else none) ∧
    (backupConfig ci).retries = (if ci then 2 else 0) ∧
    (backupConfig ci).workers = (if ci then some 1 else none) ∧
    (backupConfig ci).expectTimeout = some 20000 ∧
    (playwrightConfig ci).expectTimeout = none := by
  cases ci <;> simp [playwrightConfig, backupConfig]

/-- **C2** (corrected, counterexample): the claim says the service-picker
binding step is performed exactly when the picker control is present and
that its absence does not fail the workflow; but on a view with every
control except the picker, the backup `createRoute` helper fails with a
timeout on the picker locator. -/
theorem C2_counterexample :
    createRoute exViewNoPicker "test-route" "/test-path"
      = .error (.timedOut "route-form-service-id") := by
  rfl

/-- **C2** (amended): the backup route-creation helper binds the route to
the previously created service by activating the service-picker control
and selecting the service's name, but the step is unconditional: whenever
the helper completes, the picker was activated and the service name
selected, and when the picker control is absent (name field present) the
workflow fails with a timeout instead of skipping the step. -/
theorem C2_service_binding_unconditional (v : RouteView) (rname rpath : String) :
    (v.nameField = true → v.servicePicker = false →
       createRoute v rname rpath = .error (.timedOut "route-form-service-id")) ∧
    (∀ tr, createRoute v rname rpath = .ok tr →
       Act.click "route-form-service-id" ∈ tr ∧ Act.click "text=test-service" ∈ tr) := by
  obtain ⟨nf, sp, so, pf, sb⟩ := v
  constructor
  · intro h1 h2
    subst h1; subst h2
    rfl
  · intro tr htr
    cases nf <;> cases sp <;> cases so <;> cases pf <;> cases sb <;>
      simp [createRoute] at htr <;> subst htr <;> simp
/-- **C2** witness: the amended theorem applied to the full view. -/
theorem C2_service_binding_unconditional_witness :
    Act.click "route-form-service-id" ∈
      [Act.goto "/default/routes/create", Act.waitIdle, Act.waitMs 2000,
       Act.fillTid "route-form-name" "r",
       Act.click "route-form-service-id", Act.click "text=test-service",
       Act.fillTid "route-form-paths-input-1" "/p",
       Act.click "button:save"] :=
  ((C2_service_binding_unconditional
      { nameField := true, servicePicker := true, serviceOption := true,
        pathsField := true, saveButton := true } "r" "/p").2 _ rfl).1

/-- **C6** (confirmed): if root navigation fails or the main container
never appears, the before-each hook marks the scenario skipped (not
failed), the body is not executed, and with the target unreachable both
scenarios report skipped while the run still exits cleanly. -/
theorem C6_unreachable_skips (env : Env) (bodyA bodyB : Bool)
    (h : env.reachable = false ∨ env.containerAppears = false) :
    runKongSuite env bodyA bodyB
      = [⟨Status.skipped, false⟩, ⟨Status.skipped, false⟩] ∧
    exitOk (runKongSuite env bodyA bodyB) = true := by
  have hb : beforeEachHook env
      = .skip "Kong Manager not reachable at baseURL; skipping UI tests" := by
    rcases h with h | h <;> simp [beforeEachHook, h]
  simp [runKongSuite, runScenario, exitOk, hb]

/-- **C6** witness: the unreachable target makes both scenarios skip and
the run exit cleanly. -/
theorem C6_unreachable_skips_witness :
    runKongSuite ⟨false, true, false⟩ true true
      = [⟨Status.skipped, false⟩, ⟨Status.skipped, false⟩] ∧
    exitOk (runKongSuite ⟨false, true, false⟩ true true) = true :=
  C6_unreachable_skips ⟨false, true, false⟩ true true (Or.inl rfl)

/-- **C7** (confirmed): when direct navigation to the service-creation
view raises, `createService` recovers by activating the
`new-gateway-service` control (and completes when that control and the
save button are present); when direct navigation succeeds, that control
is never activated on any completed run. -/
theorem C7_service_nav_fallback (env : SvcEnv) (sname surl : String) :
    (env.directNavFails = true → env.newServiceBtn = true → env.saveBtn = true →
       ∃ tr pg, createService env sname surl = .ok (tr, pg) ∧
         Act.click "new-gateway-service" ∈ tr) ∧
    (env.directNavFails = false →
       ∀ tr pg, createService env sname surl = .ok (tr, pg) →
         Act.click "new-gateway-service" ∉ tr) := by
  obtain ⟨dn, nb, sb, page⟩ := env
  constructor
  · intro h1 h2 h3
    subst h1; subst h2; subst h3
    refine ⟨_, _, rfl, ?_⟩
    simp [createService]
  · intro h1 tr pg htr
    subst h1
    cases sb <;> simp [createService] at htr
    obtain ⟨htr', -⟩ := htr
    subst htr'
    simp [Act.click.injEq]

/-- **C7** witness: with failing direct navigation and the fallback
control present, the helper completes and clicks `new-gateway-service`. -/
theorem C7_service_nav_fallback_witness :
    ∃ tr pg, createService ⟨true, true, true, []⟩ "s" "http://u" = .ok (tr, pg) ∧
      Act.click "new-gateway-service" ∈ tr :=
  (C7_service_nav_fallback ⟨true, true, true, []⟩ "s" "http://u").1 rfl rfl rfl

/-- **C9** (confirmed): when the target is reachable, a visible modal
with an affirmative "OK" control is dismissed by the hook before any
action of the scenario body, and when no such modal is present the hook
completes without error (as a `proceed`, never a `skip`) and performs no
dismissal. -/
theorem C9_modal_dismissal (env : Env) (bodyActs : List Act)
    (hr : env.reachable = true) (hc : env.containerAppears = true) :
    (env.modalVisible = true →
       ∃ hs, beforeEachHook env = .proceed hs ∧ Act.click "OK" ∈ hs ∧
         scenarioTrace env bodyActs = hs ++ bodyActs) ∧
    (env.modalVisible = false →
       ∃ hs, beforeEachHook env = .proceed hs ∧ Act.click "OK" ∉ hs ∧
         scenarioTrace env bodyActs = hs ++ bodyActs) := by
  obtain ⟨r, c, m⟩ := env
  subst hr; subst hc
  constructor
  · intro hm
    subst hm
    exact ⟨_, rfl, by simp [beforeEachHook], by simp [scenarioTrace, beforeEachHook]⟩
  · intro hm
    subst hm
    refine ⟨_, rfl, ?_, by simp [scenarioTrace, beforeEachHook]⟩
    simp [beforeEachHook, Act.click.injEq]

/-- **C9** witness: with the modal visible, the hook trace contains the
dismissal ahead of the body. -/
theorem C9_modal_dismissal_witness :
    ∃ hs, beforeEachHook ⟨true, true, true⟩ = .proceed hs ∧ Act.click "OK" ∈ hs ∧
      scenarioTrace ⟨true, true, true⟩ [Act.goto "/default/services"] =
        hs ++ [Act.goto "/default/services"] :=
  (C9_modal_dismissal ⟨true, true, true⟩ [Act.goto "/default/services"] rfl rfl).1 rfl

/-- **C4** (confirmed): under the scheduling semantics of
`test.describe.serial`, in every admissible trace of the declared suite
the route-creation scenario (index 1) starts only after the
service-creation scenario (index 0) has finished. -/
theorem C4_serial_order (tr pre post : List Ev)
    (h : groupTraces kongSuite.serialMode kongSuite.tests tr)
    (heq : tr = pre ++ Ev.start 1 :: post) :
    Ev.finish 0 ∈ pre := by
  simp only [groupTraces, kongSuite, if_true] at h
  cases h with
  | step h1 =>
    cases h1 with
    | step h2 =>
      cases h2
      rcases pre with _ | ⟨a, _ | ⟨b, _ | ⟨c, _ | ⟨d, pre⟩⟩⟩⟩ <;> simp_all
    | halt =>
      rcases pre with _ | ⟨a, _ | ⟨b, _ | ⟨c, _ | ⟨d, pre⟩⟩⟩⟩ <;> simp_all
  | halt =>
    rcases pre with _ | ⟨a, _ | ⟨b, pre⟩⟩ <;> simp_all

/-- **C4** witness: in the full serial trace, scenario 0's completion
precedes scenario 1's start. -/
theorem C4_serial_order_witness :
    Ev.finish 0 ∈ [Ev.start 0, Ev.finish 0] :=
  C4_serial_order [Ev.start 0, Ev.finish 0, Ev.start 1, Ev.finish 1]
    [Ev.start 0, Ev.finish 0] [Ev.finish 1]
    (by
      simp only [groupTraces, kongSuite, if_true]
      exact SerTrace.step (SerTrace.step SerTrace.nil))
    rfl

/-- `.catch(() => {})` swallows every outcome of the selection action. -/
theorem catchUnit_ok (x : Except UIError Unit) : catchUnit x = .ok () := by
  cases x <;> rfl

/-- The probing loop, over any candidate list: it never fails, it acts on
exactly the first candidate resolving to a visible element, and it acts
at most once. -/
theorem protoRun_spec (resolve : String → Option ProtoElem) :
    ∀ sels : List String, ∃ evs, protoRun resolve sels = .ok evs ∧
      actedSel evs = sels.find? (selVisible resolve) ∧
      evs.countP isActEvent ≤ 1 := by
  intro sels
  induction sels with
  | nil => exact ⟨[], rfl, rfl, by simp⟩
  | cons s rest ih =>
    obtain ⟨evs, hrun, hact, hcnt⟩ := ih
    by_cases hv : selVisible resolve s = true
    · have hsv : selVisible resolve s = true := hv
      rw [selVisible] at hv
      cases hre : resolve s with
      | none => rw [hre] at hv; simp at hv
      | some e =>
        rw [hre] at hv
        have hv2 : e.visible = true := by simpa using hv
        refine ⟨[PEvent.probe s, PEvent.actOn s e.isSelect], ?_, ?_, by
          simp [List.countP_cons, isActEvent]⟩
        · simp [protoRun, hre, hv2, catchUnit_ok]
        · have h1 : actedSel [PEvent.probe s, PEvent.actOn s e.isSelect] = some s := by
            simp [actedSel, List.find?_cons, isActEvent]
          rw [h1, List.find?_cons, hsv]
    · have hv' : selVisible resolve s = false := by
        simpa using hv
      have hstep : protoRun resolve (s :: rest)
          = (protoRun resolve rest).map (PEvent.probe s :: ·) := by
        rw [selVisible] at hv'
        cases hre : resolve s with
        | none => simp [protoRun, hre]
        | some e =>
          rw [hre] at hv'
          have hv2 : e.visible = false := by simpa using hv'
          simp [protoRun, hre, hv2]
      refine ⟨PEvent.probe s :: evs, ?_, ?_, ?_⟩
      · rw [hstep, hrun]; rfl
      · have h1 : actedSel (PEvent.probe s :: evs) = actedSel evs := by
          simp [actedSel, List.find?_cons, isActEvent]
        rw [h1, hact, List.find?_cons, hv']
      · simpa [List.countP_cons, isActEvent] using hcnt

/-- **C8** (confirmed): protocol selection probes the fixed ordered
candidate-selector list, applies the selection to the first candidate
resolving to a visible element, acts on at most one candidate, and a
failure of the individual selection action (swallowed by the per-action
catch) never fails the workflow: the loop completes with a normal result
under every page resolution. -/
theorem C8_protocol_probe (resolve : String → Option ProtoElem) :
    ∃ evs, protoRun resolve protocolSelectors = .ok evs ∧
      actedSel evs = protocolSelectors.find? (selVisible resolve) ∧
      evs.countP isActEvent ≤ 1 :=
  protoRun_spec resolve protocolSelectors

/-- A guarded first-match fill on a page with no matching element changes
nothing. -/
theorem fillFirst_of_none (p : InputElem → Bool) (v : String) :
    ∀ l : List InputElem, l.find? p = none → fillFirst p v l = l := by
  intro l
  induction l with
  | nil => intro _; rfl
  | cons e rest ih =>
    intro h
    rw [List.find?_cons] at h
    cases hpe : p e with
    | true => rw [hpe] at h; simp at h
    | false =>
      rw [hpe] at h
      simp only [fillFirst, hpe, Bool.false_eq_true, if_false]
      rw [ih h]

/-- A guarded first-match fill whose first match is not visible changes
nothing. -/
theorem fillFirst_of_invisible (p : InputElem → Bool) (v : String) :
    ∀ l : List InputElem, ∀ e, l.find? p = some e → e.visible = false →
      fillFirst p v l = l := by
  intro l
  induction l with
  | nil => intro e h; simp [List.find?] at h
  | cons a rest ih =>
    intro e h hv
    rw [List.find?_cons] at h
    cases hpe : p a with
    | true =>
      rw [hpe] at h
      simp only [Option.some.injEq] at h
      subst h
      simp [fillFirst, hpe, hv]
    | false =>
      rw [hpe] at h
      simp only [fillFirst, hpe, Bool.false_eq_true, if_false]
      rw [ih e h hv]

/-- A guarded first-match fill whose first match is visible updates
exactly that element, at the index of the first match. -/
theorem fillFirst_of_visible (p : InputElem → Bool) (v : String) :
    ∀ l : List InputElem, ∀ e, l.find? p = some e → e.visible = true →
      fillFirst p v l = l.set (l.findIdx p) { e with value := v } := by
  intro l
  induction l with
  | nil => intro e h; simp [List.find?] at h
  | cons a rest ih =>
    intro e h hv
    rw [List.find?_cons] at h
    cases hpe : p a with
    | true =>
      rw [hpe] at h
      simp only [Option.some.injEq] at h
      subst h
      simp [fillFirst, hpe, hv, List.findIdx_cons]
    | false =>
      rw [hpe] at h
      simp only [fillFirst, hpe, Bool.false_eq_true, if_false, List.findIdx_cons]
      rw [ih e h hv]
      rfl

/-- **C5** (confirmed): the form-fill utility writes the value into the
first element matching the locator when that element is visible; when
there is no match, or the first match is not visible, it returns without
error and leaves the page unchanged; only a lower-level driver failure
(terminated session) propagates as an error. -/
theorem C5_fillFormField_spec (s : Session) (p : InputElem → Bool) (v : String) :
    (s.closed = true → fillFormField s p v = .error .sessionClosed) ∧
    (s.closed = false →
      (s.page.find? p = none → fillFormField s p v = .ok s.page) ∧
      (∀ e, s.page.find? p = some e → e.visible = false →
         fillFormField s p v = .ok s.page) ∧
      (∀ e, s.page.find? p = some e → e.visible = true →
         fillFormField s p v
           = .ok (s.page.set (s.page.findIdx p) { e with value := v }))) := by
  obtain ⟨closed, page⟩ := s
  refine ⟨fun hc => ?_, fun hc => ⟨fun hn => ?_, fun e hf hv => ?_, fun e hf hv => ?_⟩⟩
  · subst hc; rfl
  · subst hc
    simp only [fillFormField, Bool.false_eq_true, if_false, Except.ok.injEq]
    exact fillFirst_of_none p v page hn
  · subst hc
    simp only [fillFormField, Bool.false_eq_true, if_false, Except.ok.injEq]
    exact fillFirst_of_invisible p v page e hf hv
  · subst hc
    simp only [fillFormField, Bool.false_eq_true, if_false, Except.ok.injEq]
    exact fillFirst_of_visible p v page e hf hv

/-- **C5** witness: on a live session whose first `name`-attribute match
is visible, the utility fills it. -/
theorem C5_fillFormField_spec_witness :
    fillFormField
      ⟨false, [{ visible := true, nameAttr := some "name", placeholderAttr := none }]⟩
      svcNameSel "test-service"
      = .ok ([{ visible := true, nameAttr := some "name", placeholderAttr := none }].set
          ([{ visible := true, nameAttr := some "name",
              placeholderAttr := none : InputElem }].findIdx svcNameSel)
          { visible := true, nameAttr := some "name", placeholderAttr := none,
            value := "test-service" }) :=
  ((C5_fillFormField_spec
      ⟨false, [{ visible := true, nameAttr := some "name", placeholderAttr := none }]⟩
      svcNameSel "test-service").2 rfl).2.2
    { visible := true, nameAttr := some "name", placeholderAttr := none }
    (by decide) rfl

/-- Every fill action of the scan targets an index at or beyond the
running counter. -/
theorem scanOut_idx_ge : ∀ (form : List InputElem) (k : Nat) (nf pf : Bool) (a : FillAct),
    a ∈ (scanOut k form nf pf).1 → k ≤ a.idx := by
  intro form
  induction form with
  | nil => intro k nf pf a h; simp [scanOut] at h
  | cons e rest ih =>
    intro k nf pf a h
    cases h1 : (!nf && nameCondE e) with
    | true =>
      simp [scanOut, h1, List.mem_cons] at h
      rcases h with h | h
      · subst h; exact Nat.le_refl k
      · exact Nat.le_of_succ_le (ih (k + 1) true pf a h)
    | false =>
      cases h2 : (!pf && pathCondE e) with
      | true =>
        simp [scanOut, h1, h2, List.mem_cons] at h
        rcases h with h | h
        · subst h; exact Nat.le_refl k
        · exact Nat.le_of_succ_le (ih (k + 1) nf true a h)
      | false =>
        simp [scanOut, h1, h2] at h
        exact Nat.le_of_succ_le (ih (k + 1) nf pf a h)

/-- The scan writes at most one fill action per document-order index. -/
theorem scanOut_idx_unique : ∀ (form : List InputElem) (k : Nat) (nf pf : Bool)
    (a b : FillAct), a ∈ (scanOut k form nf pf).1 → b ∈ (scanOut k form nf pf).1 →
    a.idx = b.idx → a = b := by
  intro form
  induction form with
  | nil => intro k nf pf a b ha; simp [scanOut] at ha
  | cons e rest ih =>
    intro k nf pf a b ha hb hab
    cases h1 : (!nf && nameCondE e) with
    | true =>
      simp [scanOut, h1, List.mem_cons] at ha hb
      rcases ha with ha | ha <;> rcases hb with hb | hb
      · subst ha; subst hb; rfl
      · subst ha
        have := scanOut_idx_ge rest (k + 1) true pf b hb
        simp at hab
        omega
      · subst hb
        have := scanOut_idx_ge rest (k + 1) true pf a ha
        simp at hab
        omega
      · exact ih (k + 1) true pf a b ha hb hab
    | false =>
      cases h2 : (!pf && pathCondE e) with
      | true =>
        simp [scanOut, h1, h2, List.mem_cons] at ha hb
        rcases ha with ha | ha <;> rcases hb with hb | hb
        · subst ha; subst hb; rfl
        · subst ha
          have := scanOut_idx_ge rest (k + 1) nf true b hb
          simp at hab
          omega
        · subst hb
          have := scanOut_idx_ge rest (k + 1) nf true a ha
          simp at hab
          omega
        · exact ih (k + 1) nf true a b ha hb hab
      | false =>
        simp [scanOut, h1, h2] at ha hb
        exact ih (k + 1) nf pf a b ha hb hab

/-- Every fill action of the scan targets an element of the form
satisfying the branch condition matching the written value. -/
theorem scanOut_elem : ∀ (form : List InputElem) (k : Nat) (nf pf : Bool) (a : FillAct),
    a ∈ (scanOut k form nf pf).1 →
    ∃ e, form[a.idx - k]? = some e ∧
      ((a.value = "test-route" ∧ nameCondE e = true) ∨
       (a.value = "/test-path" ∧ pathCondE e = true)) := by
  intro form
  induction form with
  | nil => intro k nf pf a h; simp [scanOut] at h
  | cons e rest ih =>
    intro k nf pf a h
    cases h1 : (!nf && nameCondE e) with
    | true =>
      simp [scanOut, h1, List.mem_cons] at h
      rcases h with h | h
      · subst h
        refine ⟨e, by simp, Or.inl ⟨rfl, ?_⟩⟩
        simp [Bool.and_eq_true] at h1
        exact h1.2
      · obtain ⟨e', he', hc⟩ := ih (k + 1) true pf a h
        have hk := scanOut_idx_ge rest (k + 1) true pf a h
        refine ⟨e', ?_, hc⟩
        have harith : a.idx - k = (a.idx - (k + 1)) + 1 := by omega
        rw [harith]
        simpa using he'
    | false =>
      cases h2 : (!pf && pathCondE e) with
      | true =>
        simp [scanOut, h1, h2, List.mem_cons] at h
        rcases h with h | h
        · subst h
          refine ⟨e, by simp, Or.inr ⟨rfl, ?_⟩⟩
          simp [Bool.and_eq_true] at h2
          exact h2.2
        · obtain ⟨e', he', hc⟩ := ih (k + 1) nf true a h
          have hk := scanOut_idx_ge rest (k + 1) nf true a h
          refine ⟨e', ?_, hc⟩
          have harith : a.idx - k = (a.idx - (k + 1)) + 1 := by omega
          rw [harith]
          simpa using he'
      | false =>
        simp [scanOut, h1, h2] at h
        obtain ⟨e', he', hc⟩ := ih (k + 1) nf pf a h
        have hk := scanOut_idx_ge rest (k + 1) nf pf a h
        refine ⟨e', ?_, hc⟩
        have harith : a.idx - k = (a.idx - (k + 1)) + 1 := by omega
        rw [harith]
        simpa using he'

/-- Once `namedFilled` is set it stays set. -/
theorem scanOut_nf_true : ∀ (form : List InputElem) (k : Nat) (pf : Bool),
    (scanOut k form true pf).2.1 = true := by
  intro form
  induction form with
  | nil => intro k pf; rfl
  | cons e rest ih =>
    intro k pf
    cases h2 : (!pf && pathCondE e) with
    | true => simp [scanOut, h2, ih]
    | false => simp [scanOut, h2, ih]

/-- Once `pathFilled` is set it stays set. -/
theorem scanOut_pf_true : ∀ (form : List InputElem) (k : Nat) (nf : Bool),
    (scanOut k form nf true).2.2 = true := by
  intro form
  induction form with
  | nil => intro k nf; rfl
  | cons e rest ih =>
    intro k nf
    cases h1 : (!nf && nameCondE e) with
    | true => simp [scanOut, h1, ih]
    | false => simp [scanOut, h1, ih]

/-- With `namedFilled` already set the scan writes no route-name value. -/
theorem scanOut_countName_zero : ∀ (form : List InputElem) (k : Nat) (pf : Bool),
    ((scanOut k form true pf).1).countP (fun a => a.value == "test-route") = 0 := by
  intro form
  induction form with
  | nil => intro k pf; rfl
  | cons e rest ih =>
    intro k pf
    cases h2 : (!pf && pathCondE e) with
    | true => simp [scanOut, h2, List.countP_cons, ih]
    | false => simp [scanOut, h2, ih]

/-- With `pathFilled` already set the scan writes no path value. -/
theorem scanOut_countPath_zero : ∀ (form : List InputElem) (k : Nat) (nf : Bool),
    ((scanOut k form nf true).1).countP (fun a => a.value == "/test-path") = 0 := by
  intro form
  induction form with
  | nil => intro k nf; rfl
  | cons e rest ih =>
    intro k nf
    cases h1 : (!nf && nameCondE e) with
    | true => simp [scanOut, h1, List.countP_cons, ih]
    | false => simp [scanOut, h1, ih]

/-- The scan writes the route-name value at most once. -/
theorem scanOut_countName_le : ∀ (form : List InputElem) (k : Nat) (nf pf : Bool),
    ((scanOut k form nf pf).1).countP (fun a => a.value == "test-route") ≤ 1 := by
  intro form
  induction form with
  | nil => intro k nf pf; simp [scanOut]
  | cons e rest ih =>
    intro k nf pf
    cases h1 : (!nf && nameCondE e) with
    | true =>
      simp [scanOut, h1, List.countP_cons, scanOut_countName_zero]
    | false =>
      cases h2 : (!pf && pathCondE e) with
      | true => simp [scanOut, h1, h2, List.countP_cons, ih]
      | false => simp [scanOut, h1, h2, ih]

/-- The scan writes the path value at most once. -/
theorem scanOut_countPath_le : ∀ (form : List InputElem) (k : Nat) (nf pf : Bool),
    ((scanOut k form nf pf).1).countP (fun a => a.value == "/test-path") ≤ 1 := by
  intro form
  induction form with
  | nil => intro k nf pf; simp [scanOut]
  | cons e rest ih =>
    intro k nf pf
    cases h1 : (!nf && nameCondE e) with
    | true =>
      simp [scanOut, h1, List.countP_cons, ih]
    | false =>
      cases h2 : (!pf && pathCondE e) with
      | true => simp [scanOut, h1, h2, List.countP_cons, scanOut_countPath_zero]
      | false => simp [scanOut, h1, h2, ih]

/-- **C10** (confirmed): in the heuristic input scan, an input receives
the route-name value only if it is visible with neither a `name` nor a
`placeholder` attribute; an input receives the path value only if it is
visible and its `name` or `placeholder` attribute contains `"path"`; no
input receives both values; and each of the two values is written at most
once per scan. -/
theorem C10_scan_invariants (form : List InputElem) (i : Nat) :
    ((⟨i, "test-route"⟩ : FillAct) ∈ scanActs form →
       ∃ e, form[i]? = some e ∧ e.visible = true ∧
         truthy e.nameAttr = false ∧ truthy e.placeholderAttr = false) ∧
    ((⟨i, "/test-path"⟩ : FillAct) ∈ scanActs form →
       ∃ e, form[i]? = some e ∧ e.visible = true ∧
         (attrHas "path" e.placeholderAttr || attrHas "path" e.nameAttr) = true) ∧
    ¬((⟨i, "test-route"⟩ : FillAct) ∈ scanActs form ∧
      (⟨i, "/test-path"⟩ : FillAct) ∈ scanActs form) ∧
    (scanActs form).countP (fun a => a.value == "test-route") ≤ 1 ∧
    (scanActs form).countP (fun a => a.value == "/test-path") ≤ 1 := by
  refine ⟨fun h => ?_, fun h => ?_, fun h => ?_,
    scanOut_countName_le form 0 false false, scanOut_countPath_le form 0 false false⟩
  · obtain ⟨e, he, hc⟩ := scanOut_elem form 0 false false _ h
    rcases hc with ⟨-, hc⟩ | ⟨hv, -⟩
    · refine ⟨e, by simpa using he, ?_, ?_, ?_⟩ <;>
        simp [nameCondE, Bool.and_eq_true] at hc <;> simp [hc]
    · simp at hv
  · obtain ⟨e, he, hc⟩ := scanOut_elem form 0 false false _ h
    rcases hc with ⟨hv, -⟩ | ⟨-, hc⟩
    · simp at hv
    · refine ⟨e, by simpa using he, ?_, ?_⟩ <;>
        simp [pathCondE, Bool.and_eq_true] at hc <;> simp [hc]
  · obtain ⟨h1, h2⟩ := h
    have := scanOut_idx_unique form 0 false false _ _ h1 h2 rfl
    simp at this

/-- **C10** witness: on a form with an unlabeled first input and a
path-placeholder second input, the scan's two writes satisfy the
classification. -/
theorem C10_scan_invariants_witness :
    (∃ e, exScanForm[0]? = some e ∧ e.visible = true ∧
       truthy e.nameAttr = false ∧ truthy e.placeholderAttr = false) ∧
    (∃ e, exScanForm[1]? = some e ∧ e.visible = true ∧
       (attrHas "path" e.placeholderAttr || attrHas "path" e.nameAttr) = true) :=
  ⟨(C10_scan_invariants exScanForm 0).1 (by decide),
   (C10_scan_invariants exScanForm 1).2.1 (by decide)⟩

/-- A falsy attribute (absent or empty) cannot contain `"path"`. -/
theorem attrHas_path_of_not_truthy (o : Option String) (h : truthy o = false) :
    attrHas "path" o = false := by
  cases o with
  | none => rfl
  | some s =>
    simp [truthy] at h
    subst h
    rfl

/-- The two scan classifications are mutually exclusive: an input with
neither attribute cannot have an attribute containing `"path"`. -/
theorem nameCond_path_false (e : InputElem) (h : nameCondE e = true) :
    pathCondE e = false := by
  simp only [nameCondE, Bool.and_eq_true] at h
  obtain ⟨⟨-, hp⟩, hn⟩ := h
  have hp' : truthy e.placeholderAttr = false := by simpa using hp
  have hn' : truthy e.nameAttr = false := by simpa using hn
  simp [pathCondE, attrHas_path_of_not_truthy _ hp', attrHas_path_of_not_truthy _ hn']

/-- The route-name value of the scan lands exactly on the first input
satisfying the name classification, in document order. -/
theorem scanOut_nameTarget : ∀ (form : List InputElem) (k : Nat) (pf : Bool),
    nameTargetOf (scanOut k form false pf).1 = firstIdxFrom nameCondE k form := by
  intro form
  induction form with
  | nil => intro k pf; rfl
  | cons e rest ih =>
    intro k pf
    cases h1 : nameCondE e with
    | true =>
      simp [scanOut, h1, nameTargetOf, List.find?_cons, firstIdxFrom]
    | false =>
      cases h2 : (!pf && pathCondE e) with
      | true =>
        have hgoal := ih (k + 1) true
        simp only [nameTargetOf] at hgoal ⊢
        simp [scanOut, h1, h2, List.find?_cons, firstIdxFrom, hgoal]
      | false =>
        have hgoal := ih (k + 1) pf
        simp only [nameTargetOf] at hgoal ⊢
        simp [scanOut, h1, h2, firstIdxFrom, hgoal]

/-- The path value of the scan lands exactly on the first input
satisfying the path classification, in document order. -/
theorem scanOut_pathTarget : ∀ (form : List InputElem) (k : Nat) (nf : Bool),
    pathTargetOf (scanOut k form nf false).1 = firstIdxFrom pathCondE k form := by
  intro form
  induction form with
  | nil => intro k nf; rfl
  | cons e rest ih =>
    intro k nf
    cases h1 : (!nf && nameCondE e) with
    | true =>
      have hnc : nameCondE e = true := by
        simp [Bool.and_eq_true] at h1
        exact h1.2
      have hpc := nameCond_path_false e hnc
      have hgoal := ih (k + 1) true
      simp only [pathTargetOf] at hgoal ⊢
      simp [scanOut, h1, List.find?_cons, firstIdxFrom, hpc, hgoal]
    | false =>
      cases h2 : pathCondE e with
      | true =>
        simp [scanOut, h1, h2, pathTargetOf, List.find?_cons, firstIdxFrom]
      | false =>
        have hgoal := ih (k + 1) nf
        simp only [pathTargetOf] at hgoal ⊢
        simp [scanOut, h1, h2, firstIdxFrom, hgoal]

/-- `namedFilled` ends true exactly when some input satisfies the name
classification. -/
theorem scanOut_nf_any : ∀ (form : List InputElem) (k : Nat) (pf : Bool),
    (scanOut k form false pf).2.1 = form.any nameCondE := by
  intro form
  induction form with
  | nil => intro k pf; rfl
  | cons e rest ih =>
    intro k pf
    cases h1 : nameCondE e with
    | true => simp [scanOut, h1, scanOut_nf_true]
    | false =>
      cases h2 : (!pf && pathCondE e) with
      | true => simp [scanOut, h1, h2, ih]
      | false => simp [scanOut, h1, h2, ih]

/-- `pathFilled` ends true exactly when some input satisfies the path
classification. -/
theorem scanOut_pf_any : ∀ (form : List InputElem) (k : Nat) (nf : Bool),
    (scanOut k form nf false).2.2 = form.any pathCondE := by
  intro form
  induction form with
  | nil => intro k nf; rfl
  | cons e rest ih =>
    intro k nf
    cases h1 : (!nf && nameCondE e) with
    | true =>
      have hnc : nameCondE e = true := by
        simp [Bool.and_eq_true] at h1
        exact h1.2
      have hpc := nameCond_path_false e hnc
      simp [scanOut, h1, hpc, ih]
    | false =>
      cases h2 : pathCondE e with
      | true => simp [scanOut, h1, h2, scanOut_pf_true]
      | false => simp [scanOut, h1, h2, ih]

/-- When the scan ends with `namedFilled` unset, it wrote no route-name
value. -/
theorem scanOut_findName_none : ∀ (form : List InputElem) (k : Nat) (nf pf : Bool),
    (scanOut k form nf pf).2.1 = false →
    (scanOut k form nf pf).1.find? (fun a => a.value == "test-route") = none := by
  intro form
  induction form with
  | nil => intro k nf pf _; rfl
  | cons e rest ih =>
    intro k nf pf h
    cases h1 : (!nf && nameCondE e) with
    | true =>
      rw [show (scanOut k (e :: rest) nf pf).2.1
            = (scanOut (k + 1) rest true pf).2.1 by simp [scanOut, h1]] at h
      rw [scanOut_nf_true] at h
      exact absurd h (by simp)
    | false =>
      cases h2 : (!pf && pathCondE e) with
      | true =>
        rw [show (scanOut k (e :: rest) nf pf).2.1
              = (scanOut (k + 1) rest nf true).2.1 by simp [scanOut, h1, h2]] at h
        simp [scanOut, h1, h2, List.find?_cons, ih (k + 1) nf true h]
      | false =>
        rw [show (scanOut k (e :: rest) nf pf).2.1
              = (scanOut (k + 1) rest nf pf).2.1 by simp [scanOut, h1, h2]] at h
        simp [scanOut, h1, h2, ih (k + 1) nf pf h]

/-- When the scan ends with `pathFilled` unset, it wrote no path value. -/
theorem scanOut_findPath_none : ∀ (form : List InputElem) (k : Nat) (nf pf : Bool),
    (scanOut k form nf pf).2.2 = false →
    (scanOut k form nf pf).1.find? (fun a => a.value == "/test-path") = none := by
  intro form
  induction form with
  | nil => intro k nf pf _; rfl
  | cons e rest ih =>
    intro k nf pf h
    cases h1 : (!nf && nameCondE e) with
    | true =>
      rw [show (scanOut k (e :: rest) nf pf).2.2
            = (scanOut (k + 1) rest true pf).2.2 by simp [scanOut, h1]] at h
      simp [scanOut, h1, List.find?_cons, ih (k + 1) true pf h]
    | false =>
      cases h2 : (!pf && pathCondE e) with
      | true =>
        rw [show (scanOut k (e :: rest) nf pf).2.2
              = (scanOut (k + 1) rest nf true).2.2 by simp [scanOut, h1, h2]] at h
        rw [scanOut_pf_true] at h
        exact absurd h (by simp)
      | false =>
        rw [show (scanOut k (e :: rest) nf pf).2.2
              = (scanOut (k + 1) rest nf pf).2.2 by simp [scanOut, h1, h2]] at h
        simp [scanOut, h1, h2, ih (k + 1) nf pf h]

/-- Every action of a fallback fill writes the fallback's value. -/
theorem fbAct_value (p : InputElem → Bool) (v : String) :
    ∀ (k : Nat) (form : List InputElem) (a : FillAct),
      a ∈ fbAct p v k form → a.value = v := by
  intro k form
  induction form generalizing k with
  | nil => intro a h; simp [fbAct] at h
  | cons e rest ih =>
    intro a h
    cases hpe : p e with
    | true =>
      cases hv : e.visible with
      | true =>
        simp [fbAct, hpe, hv] at h
        subst h; rfl
      | false => simp [fbAct, hpe, hv] at h
    | false =>
      simp [fbAct, hpe] at h
      exact ih (k + 1) a h

/-- A fallback fill for one value contains no action for a different
value. -/
theorem fbAct_find_other (p : InputElem → Bool) (v w : String) (hvw : (v == w) = false)
    (k : Nat) (form : List InputElem) :
    (fbAct p v k form).find? (fun a => a.value == w) = none := by
  rw [List.find?_eq_none]
  intro a ha
  simp [fbAct_value p v k form a ha, hvw]

/-- Every action of a fallback fill targets a visible input matched by
the fallback's attribute-substring locator. -/
theorem fbAct_target (p : InputElem → Bool) (v : String) :
    ∀ (k : Nat) (form : List InputElem) (a : FillAct), a ∈ fbAct p v k form →
      k ≤ a.idx ∧ ∃ e, form[a.idx - k]? = some e ∧ p e = true ∧ e.visible = true := by
  intro k form
  induction form generalizing k with
  | nil => intro a h; simp [fbAct] at h
  | cons e rest ih =>
    intro a h
    cases hpe : p e with
    | true =>
      cases hv : e.visible with
      | true =>
        simp [fbAct, hpe, hv] at h
        subst h
        exact ⟨Nat.le_refl k, e, by simp, hpe, hv⟩
      | false => simp [fbAct, hpe, hv] at h
    | false =>
      simp [fbAct, hpe] at h
      obtain ⟨hk, e', he', hpe', hv'⟩ := ih (k + 1) a h
      refine ⟨Nat.le_of_succ_le hk, e', ?_, hpe', hv'⟩
      have harith : a.idx - k = (a.idx - (k + 1)) + 1 := by omega
      rw [harith]
      simpa using he'

/-- The route-form population is the scan followed by the two gated
fallbacks. -/
theorem routeFillActs_eq (form : List InputElem) :
    routeFillActs form
      = scanActs form
        ++ (if scanNF form then [] else fbAct nameFbMatch "test-route" 0 form)
        ++ (if scanPF form then [] else fbAct pathFbMatch "/test-path" 0 form) := rfl

/-- **C1** (corrected, counterexample): the claim's first layer (an exact
test-identifier-addressed field tried before the scan) does not exist in
the primary workflow and has no scan fallback in the backup helper.  On a
form whose test-id-addressed name field is at index 0 (carrying a `name`
attribute) with an unlabeled input at index 1, the primary workflow
writes the route name to index 1, not to the test-id field; and in the
backup helper an unavailable test-id name field aborts the workflow
instead of falling back to a scan. -/
theorem C1_counterexample :
    testIdIdx "route-form-name" 0 exForm = some 0 ∧
    nameTargetOf (routeFillActs exForm) = some 1 ∧
    createRoute exViewNoName "test-route" "/test-path"
      = .error (.timedOut "route-form-name") := by
  refine ⟨by decide, by decide, by rfl⟩

/-- **C1** (amended): in the primary route-creation scenario, populating
the route name and path fields follows a two-layer strategy: the
heuristic scan classifies, in document order, the first visible input
with neither a `name` nor a `placeholder` attribute as the name field and
the first visible input whose `name`/`placeholder` attribute contains
`"path"` as the path field; only when the scan fails to fill a field is
the attribute-substring fallback locator used for that field, writing to
a visible input matched by that locator. -/
theorem C1_route_name_two_layers (form : List InputElem) :
    nameTargetOf (scanActs form) = firstIdxFrom nameCondE 0 form ∧
    pathTargetOf (scanActs form) = firstIdxFrom pathCondE 0 form ∧
    scanNF form = form.any nameCondE ∧
    scanPF form = form.any pathCondE ∧
    (scanNF form = true →
       nameTargetOf (routeFillActs form) = nameTargetOf (scanActs form)) ∧
    (scanNF form = false →
       nameTargetOf (routeFillActs form)
         = nameTargetOf (fbAct nameFbMatch "test-route" 0 form)) ∧
    (scanPF form = true →
       pathTargetOf (routeFillActs form) = pathTargetOf (scanActs form)) ∧
    (scanPF form = false →
       pathTargetOf (routeFillActs form)
         = pathTargetOf (fbAct pathFbMatch "/test-path" 0 form)) ∧
    (∀ a ∈ fbAct nameFbMatch "test-route" 0 form,
       ∃ e, form[a.idx]? = some e ∧ nameFbMatch e = true ∧ e.visible = true) ∧
    (∀ a ∈ fbAct pathFbMatch "/test-path" 0 form,
       ∃ e, form[a.idx]? = some e ∧ pathFbMatch e = true ∧ e.visible = true) := by
  have hCnone : (if scanPF form then [] else fbAct pathFbMatch "/test-path" 0 form).find?
      (fun a => a.value == "test-route") = none := by
    cases scanPF form
    · exact fbAct_find_other pathFbMatch "/test-path" "test-route" (by simp) 0 form
    · rfl
  have hBnone : (if scanNF form then [] else fbAct nameFbMatch "test-route" 0 form).find?
      (fun a => a.value == "/test-path") = none := by
    cases scanNF form
    · exact fbAct_find_other nameFbMatch "test-route" "/test-path" (by simp) 0 form
    · rfl
  refine ⟨scanOut_nameTarget form 0 false, scanOut_pathTarget form 0 false,
    scanOut_nf_any form 0 false, scanOut_pf_any form 0 false,
    fun h => ?_, fun h => ?_, fun h => ?_, fun h => ?_,
    fun a ha => (fbAct_target nameFbMatch "test-route" 0 form a ha).2,
    fun a ha => (fbAct_target pathFbMatch "/test-path" 0 form a ha).2⟩
  · rw [routeFillActs_eq, h]
    simp only [if_true, nameTargetOf, List.find?_append, List.find?_nil]
    rw [hCnone]
    simp
  · rw [routeFillActs_eq, h]
    have hA := scanOut_findName_none form 0 false false h
    simp only [Bool.false_eq_true, if_false, nameTargetOf, List.find?_append]
    rw [show (scanActs form).find? (fun a => a.value == "test-route")
          = none from hA, hCnone]
    simp
  · rw [routeFillActs_eq, h]
    simp only [if_true, pathTargetOf, List.find?_append, List.find?_nil]
    rw [hBnone]
    simp
  · rw [routeFillActs_eq, h]
    have hA := scanOut_findPath_none form 0 false false h
    simp only [Bool.false_eq_true, if_false, pathTargetOf, List.find?_append]
    rw [show (scanActs form).find? (fun a => a.value == "/test-path")
          = none from hA, hBnone]
    simp

/-- **C1** witness: on a form the scan fills, the fallback is not used;
on a form the scan cannot fill, the name lands on the fallback locator's
target. -/
theorem C1_route_name_two_layers_witness :
    nameTargetOf (routeFillActs exScanForm) = nameTargetOf (scanActs exScanForm) ∧
    nameTargetOf (routeFillActs exFbForm)
      = nameTargetOf (fbAct nameFbMatch "test-route" 0 exFbForm) :=
  ⟨(C1_route_name_two_layers exScanForm).2.2.2.2.1 (by decide),
   (C1_route_name_two_layers exFbForm).2.2.2.2.2.1 (by decide)⟩
